import Mathlib

/-!
Shallow embedding of `xivo_test_helpers/until.py`.

The module offers four blocking polling strategies (`assert_`, `true`,
`false`, `return_`) sharing the exception type `NoMoreTries`.  We embed each
strategy as a pure Lean function:

* A probe is a function from the invocation index (0-based) to its outcome,
  so the j-th probe invocation is `probe j`.
* Python exceptions become explicit result constructors: `NoMoreTries(msg)`
  becomes `noMoreTries msg` (its argument may be `None`, hence
  `Option String`), any other exception propagating out of `assert_` becomes
  `propagated e`.
* Python truthiness (`if return_value:`) on the arbitrary objects returned by
  a probe is modelled by an explicit predicate `truthy : α → Bool` passed
  alongside the probe; on the optional `message` string the source's
  `if message:` test is `pyTruthy`.
* Wall-clock time for `return_` is modelled by rationals.  `time.time()`
  advances only at `time.sleep` (which is exact: sleeping until a target
  timestamp sets the clock to that timestamp) and during a probe invocation,
  whose duration is given by `dur : Nat → ℚ` (the j-th invocation takes
  `dur j` seconds).
* Each strategy returns, besides its result, the number of probe invocations
  performed and the number of `time.sleep` calls executed, so that claims
  about invocation counts and retry sleeps can be stated.
-/

namespace Until

/-- Outcome of one invocation of the probe handed to `assert_`: return
normally, raise `AssertionError` with the given message, or raise any other
exception (identified by a string). -/
inductive AssertOutcome where
  | ok
  | assertionError (msg : String)
  | raised (exc : String)
deriving DecidableEq, Repr

/-- How a call to `assert_` ends: normal return, `raise NoMoreTries(...)`, or
an exception of another type propagating out of the probe. -/
inductive AssertResult where
  | returned
  | noMoreTries (msg : Option String)
  | propagated (exc : String)
deriving DecidableEq, Repr

/-- How a call to `true`, `false` or `return_` ends: return a value, or
`raise NoMoreTries(message)`. -/
inductive PollResult (α : Type) where
  | returned (val : α)
  | noMoreTries (msg : Option String)
deriving DecidableEq, Repr

/-- Python truthiness of the `message` keyword argument (`None` or a string):
`if message:` is true exactly for a non-empty string. -/
def pyTruthy : Option String → Bool
  | none => Bool.false
  | some s => !(s == "")

/-- The `for ... else` block of `assert_`: `if message: raise
NoMoreTries(message)` else `raise NoMoreTries('\n'.join(errors))`. -/
def noMoreTriesMessage (message : Option String) (errors : List String) : AssertResult :=
  if pyTruthy message then AssertResult.noMoreTries message
  else AssertResult.noMoreTries (some (String.intercalate "\n" errors))

/-- The retry loop of `assert_`: arguments are the next invocation index, the
accumulated `errors` list, the number of sleeps so far, and the remaining
iterations of `six.moves.range(tries)`.  Returns the result together with the
total number of probe invocations and of `time.sleep` calls. -/
def assertLoop (assert_function : Nat → AssertOutcome) (message : Option String) :
    Nat → List String → Nat → Nat → AssertResult × Nat × Nat
  | i, errors, sleeps, 0 => (noMoreTriesMessage message errors, i, sleeps)
  | i, errors, sleeps, n + 1 =>
    match assert_function i with
    | AssertOutcome.ok => (AssertResult.returned, i + 1, sleeps)
    | AssertOutcome.assertionError m =>
        assertLoop assert_function message (i + 1) (errors ++ [m]) (sleeps + 1) n
    | AssertOutcome.raised e => (AssertResult.propagated e, i + 1, sleeps)

/-- `until.assert_(assert_function, message=message, tries=tries)`. -/
def assert_ (assert_function : Nat → AssertOutcome) (message : Option String) (tries : Nat) :
    AssertResult × Nat × Nat :=
  assertLoop assert_function message 0 [] 0 tries

/-- The retry loop of `until.true`: arguments are the next invocation index,
the number of sleeps so far, and the remaining iterations of
`six.moves.range(tries)`. -/
def trueLoop {α : Type} (function : Nat → α) (truthy : α → Bool) (message : Option String) :
    Nat → Nat → Nat → PollResult α × Nat × Nat
  | i, sleeps, 0 => (PollResult.noMoreTries message, i, sleeps)
  | i, sleeps, n + 1 =>
    let return_value := function i
    if truthy return_value then (PollResult.returned return_value, i + 1, sleeps)
    else trueLoop function truthy message (i + 1) (sleeps + 1) n

/-- The retry loop of `until.false`: same shape as `trueLoop` but the success
test is `if not return_value:`. -/
def falseLoop {α : Type} (function : Nat → α) (truthy : α → Bool) (message : Option String) :
    Nat → Nat → Nat → PollResult α × Nat × Nat
  | i, sleeps, 0 => (PollResult.noMoreTries message, i, sleeps)
  | i, sleeps, n + 1 =>
    let return_value := function i
    if truthy return_value then falseLoop function truthy message (i + 1) (sleeps + 1) n
    else (PollResult.returned return_value, i + 1, sleeps)

/-- Outcome of one invocation of the probe handed to `return_`: return a
value, or raise an exception (caught by the bare `except Exception`). -/
inductive ReturnOutcome (α : Type) where
  | ok (val : α)
  | exc (e : String)
deriving DecidableEq, Repr

/-- The generator `executions()` of `return_`, unrolled from offset
`time_spent`: yields `start_time + time_spent` and advances by `interval`
while `time_spent < timeout`.  For a non-positive `interval` the Python
generator never terminates; the claims only concern a positive `interval`,
for which this definition agrees with the source. -/
def executionsFrom (start_time interval timeout : ℚ) (time_spent : ℚ) : List ℚ :=
  if h : 0 < interval ∧ time_spent < timeout then
    (start_time + time_spent) :: executionsFrom start_time interval timeout (time_spent + interval)
  else
    []
termination_by (⌈(timeout - time_spent) / interval⌉).toNat
decreasing_by
  obtain ⟨hi, ht⟩ := h
  have hkey : (timeout - (time_spent + interval)) / interval
      = (timeout - time_spent) / interval - 1 := by
    field_simp
    ring
  have hpos : 0 < ⌈(timeout - time_spent) / interval⌉ :=
    Int.ceil_pos.2 (div_pos (by linarith) hi)
  rw [hkey, Int.ceil_sub_one]
  omega

/-- The generator `executions()` of `return_`: the first tick is scheduled at
`start_time + interval / 10`. -/
def executions (start_time interval timeout : ℚ) : List ℚ :=
  executionsFrom start_time interval timeout (interval / 10)

/-- The `for next_execution in executions()` loop of `return_`: arguments are
the current clock value, the remaining ticks, the next invocation index and
the number of sleeps so far.  A tick in the past (`time.time() >
next_execution`) is skipped; otherwise the loop sleeps until the tick, runs
the probe (taking `dur i` seconds), returns its value on normal completion
and swallows any exception.  The `for ... else` block raises
`NoMoreTries(message)`. -/
def returnLoop {α : Type} (function : Nat → ReturnOutcome α) (dur : Nat → ℚ)
    (message : Option String) :
    ℚ → List ℚ → Nat → Nat → PollResult α × Nat × Nat
  | _, [], i, sleeps => (PollResult.noMoreTries message, i, sleeps)
  | now, next_execution :: rest, i, sleeps =>
    if next_execution < now then
      returnLoop function dur message now rest i sleeps
    else
      match function i with
      | ReturnOutcome.ok v => (PollResult.returned v, i + 1, sleeps + 1)
      | ReturnOutcome.exc _ =>
          returnLoop function dur message (next_execution + dur i) rest (i + 1) (sleeps + 1)

/-- `until.return_(function, message=message, timeout=timeout,
interval=interval)`, started at clock value `start_time`. -/
def return_ {α : Type} (function : Nat → ReturnOutcome α) (dur : Nat → ℚ)
    (message : Option String) (timeout interval start_time : ℚ) :
    PollResult α × Nat × Nat :=
  returnLoop function dur message start_time (executions start_time interval timeout) 0 0

/-- Number of ticks the schedule of `return_` yields: the ticks are
`start_time + interval / 10 + k * interval` for `k < nTicks interval
timeout`. -/
def nTicks (interval timeout : ℚ) : Nat :=
  (⌈(timeout - interval / 10) / interval⌉).toNat

/-- `until.true(function, message=message, tries=tries)`, with `truthy` the
explicit truthiness predicate for the probe's return type. -/
def true {α : Type} (function : Nat → α) (truthy : α → Bool) (message : Option String)
    (tries : Nat) : PollResult α × Nat × Nat :=
  trueLoop function truthy message 0 0 tries

/-- `until.false(function, message=message, tries=tries)`, with `truthy` the
explicit truthiness predicate for the probe's return type. -/
def false {α : Type} (function : Nat → α) (truthy : α → Bool) (message : Option String)
    (tries : Nat) : PollResult α × Nat × Nat :=
  falseLoop function truthy message 0 0 tries

/-- Unrolling `executionsFrom`: from offset `time_spent` the generator yields
exactly the timestamps `start_time + time_spent + k * interval` for
`k < ⌈(timeout - time_spent) / interval⌉`. -/
theorem executionsFrom_eq (start_time interval timeout : ℚ) (hi : 0 < interval) :
    ∀ (n : Nat) (time_spent : ℚ),
      (⌈(timeout - time_spent) / interval⌉).toNat = n →
      executionsFrom start_time interval timeout time_spent
        = (List.range n).map (fun k : Nat => start_time + time_spent + (k : ℚ) * interval) := by
  intro n
  induction n with
  | zero =>
    intro t hn
    rw [executionsFrom, dif_neg, List.range_zero, List.map_nil]
    rintro ⟨-, ht⟩
    have hx : 0 < (timeout - t) / interval := div_pos (by linarith) hi
    have := Int.ceil_pos.2 hx
    omega
  | succ n ih =>
    intro t hn
    have hx : 0 < (timeout - t) / interval := by
      by_contra hle
      push_neg at hle
      have : ⌈(timeout - t) / interval⌉ ≤ 0 := Int.ceil_le.2 (by push_cast; linarith)
      omega
    have ht : t < timeout := by
      rcases div_pos_iff.1 hx with ⟨h1, -⟩ | ⟨-, h2⟩
      · linarith
      · linarith
    have hkey : (timeout - (t + interval)) / interval = (timeout - t) / interval - 1 := by
      field_simp
      ring
    have hn' : (⌈(timeout - (t + interval)) / interval⌉).toNat = n := by
      rw [hkey, Int.ceil_sub_one]
      have := Int.ceil_pos.2 hx
      omega
    rw [executionsFrom, dif_pos ⟨hi, ht⟩, ih (t + interval) hn', List.range_succ_eq_map,
      List.map_cons, List.map_map]
    congr 1
    · push_cast
      ring
    · refine List.map_congr_left fun k _ => ?_
      simp only [Function.comp_apply]
      push_cast
      ring

/-- The tick schedule of `return_` is the arithmetic sequence
`start_time + interval / 10 + k * interval` for `k < nTicks interval
timeout`. -/
theorem executions_eq (start_time interval timeout : ℚ) (hi : 0 < interval) :
    executions start_time interval timeout
      = (List.range (nTicks interval timeout)).map
          (fun k : Nat => start_time + interval / 10 + (k : ℚ) * interval) :=
  executionsFrom_eq start_time interval timeout hi (nTicks interval timeout)
    (interval / 10) rfl

/-- Index `k` is in the schedule exactly when its offset from `start_time`,
namely `interval / 10 + k * interval`, is strictly below `timeout`. -/
theorem lt_nTicks_iff (interval timeout : ℚ) (hi : 0 < interval) (k : Nat) :
    k < nTicks interval timeout ↔ interval / 10 + (k : ℚ) * interval < timeout := by
  unfold nTicks
  rw [Int.lt_toNat, Int.lt_ceil, lt_div_iff₀ hi]
  push_cast
  constructor <;> intro h <;> linarith

/-- The loop of `return_` performs at most one probe invocation per scheduled
tick. -/
theorem returnLoop_calls_le {α : Type} (function : Nat → ReturnOutcome α) (dur : Nat → ℚ)
    (message : Option String) :
    ∀ (ticks : List ℚ) (now : ℚ) (i sleeps : Nat),
      (returnLoop function dur message now ticks i sleeps).2.1 ≤ i + ticks.length := by
  intro ticks
  induction ticks with
  | nil => intro now i sleeps; simp [returnLoop]
  | cons tick rest ih =>
    intro now i sleeps
    rw [returnLoop]
    by_cases hsk : tick < now
    · rw [if_pos hsk]
      refine Nat.le_trans (ih now i sleeps) ?_
      simp
    · rw [if_neg hsk]
      cases hf : function i with
      | ok v => simp
      | exc e =>
        refine Nat.le_trans (ih (tick + dur i) (i + 1) (sleeps + 1)) ?_
        simp
        omega

/-- If all attempts in a stretch of the `assert_` loop raise
`AssertionError`, the loop exhausts its budget, accumulating the messages in
attempt order and sleeping after every attempt. -/
theorem assertLoop_all_fail (assert_function : Nat → AssertOutcome) (msgs : Nat → String)
    (message : Option String) :
    ∀ (n i : Nat) (errors : List String) (sleeps : Nat),
      (∀ j, j < n → assert_function (i + j) = AssertOutcome.assertionError (msgs (i + j))) →
      assertLoop assert_function message i errors sleeps n
        = (noMoreTriesMessage message
            (errors ++ (List.range n).map (fun j => msgs (i + j))), i + n, sleeps + n) := by
  intro n
  induction n with
  | zero => intro i errors sleeps _; simp [assertLoop]
  | succ n ih =>
    intro i errors sleeps h
    have h0 : assert_function i = AssertOutcome.assertionError (msgs i) := by
      simpa using h 0 (Nat.succ_pos n)
    have ih' := ih (i + 1) (errors ++ [msgs i]) (sleeps + 1)
      (fun j hj => by simpa [Nat.add_assoc, Nat.add_comm 1 j] using h (j + 1) (by omega))
    have hlist : errors ++ [msgs i] ++ (List.range n).map (fun j => msgs (i + 1 + j))
        = errors ++ (List.range (n + 1)).map (fun j => msgs (i + j)) := by
      rw [List.range_succ_eq_map, List.map_cons, List.map_map, List.append_assoc,
        List.singleton_append, Nat.add_zero]
      refine congrArg (errors ++ ·) (congrArg (msgs i :: ·) ?_)
      refine List.map_congr_left fun k _ => ?_
      simp only [Function.comp_apply]
      congr 1
      omega
    simp only [assertLoop, h0]
    rw [ih', hlist]
    simp only [Prod.mk.injEq]
    refine ⟨?_, ?_, ?_⟩ <;> first | trivial | omega

/-- If the first `k` attempts of the `assert_` loop raise `AssertionError`
and attempt `k` returns normally, the loop returns after `k + 1` invocations,
having slept after each of the `k` failures. -/
theorem assertLoop_first_ok (assert_function : Nat → AssertOutcome) (msgs : Nat → String)
    (message : Option String) :
    ∀ (k n i : Nat) (errors : List String) (sleeps : Nat),
      (∀ j, j < k → assert_function (i + j) = AssertOutcome.assertionError (msgs (i + j))) →
      assert_function (i + k) = AssertOutcome.ok →
      k < n →
      assertLoop assert_function message i errors sleeps n
        = (AssertResult.returned, i + k + 1, sleeps + k) := by
  intro k
  induction k with
  | zero =>
    intro n i errors sleeps _ hok hn
    cases n with
    | zero => omega
    | succ m =>
      simp only [Nat.add_zero] at hok
      simp only [assertLoop, hok, Prod.mk.injEq]
      refine ⟨?_, ?_, ?_⟩ <;> first | trivial | omega
  | succ k ih =>
    intro n i errors sleeps h hok hn
    cases n with
    | zero => omega
    | succ m =>
      have h0 : assert_function i = AssertOutcome.assertionError (msgs i) := by
        simpa using h 0 (Nat.succ_pos k)
      have ih' := ih m (i + 1) (errors ++ [msgs i]) (sleeps + 1)
        (fun j hj => by simpa [Nat.add_assoc, Nat.add_comm 1 j] using h (j + 1) (by omega))
        (by simpa [Nat.add_assoc, Nat.add_comm 1 k] using hok)
        (by omega)
      simp only [assertLoop, h0]
      rw [ih']
      simp only [Prod.mk.injEq]
      refine ⟨?_, ?_, ?_⟩ <;> first | trivial | omega

/-- If the first `k` attempts of the `assert_` loop raise `AssertionError`
and attempt `k` raises a non-assertion exception, that exception propagates
after `k + 1` invocations. -/
theorem assertLoop_first_raised (assert_function : Nat → AssertOutcome) (msgs : Nat → String)
    (message : Option String) (e : String) :
    ∀ (k n i : Nat) (errors : List String) (sleeps : Nat),
      (∀ j, j < k → assert_function (i + j) = AssertOutcome.assertionError (msgs (i + j))) →
      assert_function (i + k) = AssertOutcome.raised e →
      k < n →
      assertLoop assert_function message i errors sleeps n
        = (AssertResult.propagated e, i + k + 1, sleeps + k) := by
  intro k
  induction k with
  | zero =>
    intro n i errors sleeps _ hraise hn
    cases n with
    | zero => omega
    | succ m =>
      simp only [Nat.add_zero] at hraise
      simp only [assertLoop, hraise, Prod.mk.injEq]
      refine ⟨?_, ?_, ?_⟩ <;> first | trivial | omega
  | succ k ih =>
    intro n i errors sleeps h hraise hn
    cases n with
    | zero => omega
    | succ m =>
      have h0 : assert_function i = AssertOutcome.assertionError (msgs i) := by
        simpa using h 0 (Nat.succ_pos k)
      have ih' := ih m (i + 1) (errors ++ [msgs i]) (sleeps + 1)
        (fun j hj => by simpa [Nat.add_assoc, Nat.add_comm 1 j] using h (j + 1) (by omega))
        (by simpa [Nat.add_assoc, Nat.add_comm 1 k] using hraise)
        (by omega)
      simp only [assertLoop, h0]
      rw [ih']
      simp only [Prod.mk.injEq]
      refine ⟨?_, ?_, ?_⟩ <;> first | trivial | omega

/-- If the first `k` attempts of `until.true` produce falsy values and
attempt `k` produces a truthy one, the loop returns that value after `k + 1`
invocations, having slept after each falsy attempt. -/
theorem trueLoop_first_truthy {α : Type} (function : Nat → α) (truthy : α → Bool)
    (message : Option String) :
    ∀ (k n i sleeps : Nat),
      (∀ j, j < k → truthy (function (i + j)) = Bool.false) →
      truthy (function (i + k)) = Bool.true →
      k < n →
      trueLoop function truthy message i sleeps n
        = (PollResult.returned (function (i + k)), i + k + 1, sleeps + k) := by
  intro k
  induction k with
  | zero =>
    intro n i sleeps _ htr hn
    cases n with
    | zero => omega
    | succ m =>
      simp only [Nat.add_zero] at htr
      simp [trueLoop, htr]
  | succ k ih =>
    intro n i sleeps h htr hn
    cases n with
    | zero => omega
    | succ m =>
      have h0 : truthy (function i) = Bool.false := by
        simpa using h 0 (Nat.succ_pos k)
      have ih' := ih m (i + 1) (sleeps + 1)
        (fun j hj => by simpa [Nat.add_assoc, Nat.add_comm 1 j] using h (j + 1) (by omega))
        (by simpa [Nat.add_assoc, Nat.add_comm 1 k] using htr)
        (by omega)
      have e1 : i + 1 + k = i + (k + 1) := by omega
      simp only [trueLoop, h0]
      rw [if_neg (by simp), ih', e1]
      simp only [Prod.mk.injEq]
      refine ⟨?_, ?_, ?_⟩ <;> first | trivial | omega

/-- If all `n` attempts of `until.true` produce falsy values, the loop raises
`NoMoreTries` carrying the caller's message unchanged, having invoked the
probe and slept `n` times. -/
theorem trueLoop_all_falsy {α : Type} (function : Nat → α) (truthy : α → Bool)
    (message : Option String) :
    ∀ (n i sleeps : Nat),
      (∀ j, j < n → truthy (function (i + j)) = Bool.false) →
      trueLoop function truthy message i sleeps n
        = (PollResult.noMoreTries message, i + n, sleeps + n) := by
  intro n
  induction n with
  | zero => intro i sleeps _; simp [trueLoop]
  | succ n ih =>
    intro i sleeps h
    have h0 : truthy (function i) = Bool.false := by
      simpa using h 0 (Nat.succ_pos n)
    have ih' := ih (i + 1) (sleeps + 1)
      (fun j hj => by simpa [Nat.add_assoc, Nat.add_comm 1 j] using h (j + 1) (by omega))
    simp only [trueLoop, h0]
    rw [if_neg (by simp), ih']
    simp only [Prod.mk.injEq]
    refine ⟨?_, ?_, ?_⟩ <;> first | trivial | omega

/-- If the first `k` attempts of `until.false` produce truthy values and
attempt `k` produces a falsy one, the loop returns that value after `k + 1`
invocations, having slept after each truthy attempt. -/
theorem falseLoop_first_falsy {α : Type} (function : Nat → α) (truthy : α → Bool)
    (message : Option String) :
    ∀ (k n i sleeps : Nat),
      (∀ j, j < k → truthy (function (i + j)) = Bool.true) →
      truthy (function (i + k)) = Bool.false →
      k < n →
      falseLoop function truthy message i sleeps n
        = (PollResult.returned (function (i + k)), i + k + 1, sleeps + k) := by
  intro k
  induction k with
  | zero =>
    intro n i sleeps _ hfa hn
    cases n with
    | zero => omega
    | succ m =>
      simp only [Nat.add_zero] at hfa
      simp [falseLoop, hfa]
  | succ k ih =>
    intro n i sleeps h hfa hn
    cases n with
    | zero => omega
    | succ m =>
      have h0 : truthy (function i) = Bool.true := by
        simpa using h 0 (Nat.succ_pos k)
      have ih' := ih m (i + 1) (sleeps + 1)
        (fun j hj => by simpa [Nat.add_assoc, Nat.add_comm 1 j] using h (j + 1) (by omega))
        (by simpa [Nat.add_assoc, Nat.add_comm 1 k] using hfa)
        (by omega)
      have e1 : i + 1 + k = i + (k + 1) := by omega
      simp only [falseLoop, h0]
      rw [if_pos (by simp), ih', e1]
      simp only [Prod.mk.injEq]
      refine ⟨?_, ?_, ?_⟩ <;> first | trivial | omega

/-- If all `n` attempts of `until.false` produce truthy values, the loop
raises `NoMoreTries` carrying the caller's message unchanged, having invoked
the probe and slept `n` times. -/
theorem falseLoop_all_truthy {α : Type} (function : Nat → α) (truthy : α → Bool)
    (message : Option String) :
    ∀ (n i sleeps : Nat),
      (∀ j, j < n → truthy (function (i + j)) = Bool.true) →
      falseLoop function truthy message i sleeps n
        = (PollResult.noMoreTries message, i + n, sleeps + n) := by
  intro n
  induction n with
  | zero => intro i sleeps _; simp [falseLoop]
  | succ n ih =>
    intro i sleeps h
    have h0 : truthy (function i) = Bool.true := by
      simpa using h 0 (Nat.succ_pos n)
    have ih' := ih (i + 1) (sleeps + 1)
      (fun j hj => by simpa [Nat.add_assoc, Nat.add_comm 1 j] using h (j + 1) (by omega))
    simp only [falseLoop, h0]
    rw [if_pos (by simp), ih']
    simp only [Prod.mk.injEq]
    refine ⟨?_, ?_, ?_⟩ <;> first | trivial | omega

/-- If every probe invocation raises, the loop of `return_` ends by raising
`NoMoreTries` carrying the caller's message unchanged. -/
theorem returnLoop_all_exc {α : Type} (function : Nat → ReturnOutcome α) (dur : Nat → ℚ)
    (message : Option String) (es : Nat → String)
    (hall : ∀ j, function j = ReturnOutcome.exc (es j)) :
    ∀ (ticks : List ℚ) (now : ℚ) (i sleeps : Nat),
      (returnLoop function dur message now ticks i sleeps).1
        = PollResult.noMoreTries message := by
  intro ticks
  induction ticks with
  | nil => intro now i sleeps; simp [returnLoop]
  | cons tick rest ih =>
    intro now i sleeps
    rw [returnLoop]
    by_cases hsk : tick < now
    · rw [if_pos hsk]
      exact ih now i sleeps
    · rw [if_neg hsk]
      simp only [hall i]
      exact ih (tick + dur i) (i + 1) (sleeps + 1)

/-- If the probe raises on every invocation before `j0` and returns `v` at
invocation `j0`, the loop of `return_` (entered with at most `j0` invocations
performed) either returns `v` or exhausts its schedule — it never propagates
an exception and never returns another value. -/
theorem returnLoop_first_ok {α : Type} (function : Nat → ReturnOutcome α) (dur : Nat → ℚ)
    (message : Option String) (es : Nat → String) (j0 : Nat) (v : α)
    (hexc : ∀ j, j < j0 → function j = ReturnOutcome.exc (es j))
    (hok : function j0 = ReturnOutcome.ok v) :
    ∀ (ticks : List ℚ) (now : ℚ) (i sleeps : Nat), i ≤ j0 →
      (returnLoop function dur message now ticks i sleeps).1 = PollResult.returned v
      ∨ (returnLoop function dur message now ticks i sleeps).1
          = PollResult.noMoreTries message := by
  intro ticks
  induction ticks with
  | nil =>
    intro now i sleeps _
    right
    simp [returnLoop]
  | cons tick rest ih =>
    intro now i sleeps hij
    rw [returnLoop]
    by_cases hsk : tick < now
    · rw [if_pos hsk]
      exact ih now i sleeps hij
    · rw [if_neg hsk]
      rcases Nat.lt_or_ge i j0 with hlt | hge
      · simp only [hexc i hlt]
        exact ih (tick + dur i) (i + 1) (sleeps + 1) hlt
      · have hi0 : i = j0 := Nat.le_antisymm hij hge
        subst hi0
        simp [hok]

end Until

/-- Claim C1: for every call to return-until-timeout with positive interval
and timeout, the scheduled tick timestamps are exactly
`start_time + interval / 10 + k * interval` for `k = 0, 1, 2, ...`, including
precisely those ticks whose offset `interval / 10 + k * interval` from
`start_time` is strictly less than `timeout`; and any tick whose target
timestamp has already passed when it is considered is skipped with no probe
invocation. -/
theorem c1_return_schedule (start_time interval timeout : ℚ)
    (hi : 0 < interval) (ht : 0 < timeout) :
    (Until.executions start_time interval timeout
        = (List.range (Until.nTicks interval timeout)).map
            (fun k : Nat => start_time + interval / 10 + (k : ℚ) * interval))
    ∧ (∀ k : Nat, k < Until.nTicks interval timeout
        ↔ interval / 10 + (k : ℚ) * interval < timeout)
    ∧ (∀ (α : Type) (function : Nat → Until.ReturnOutcome α) (dur : Nat → ℚ)
        (message : Option String) (now tick : ℚ) (rest : List ℚ) (i sleeps : Nat),
        tick < now →
        Until.returnLoop function dur message now (tick :: rest) i sleeps
          = Until.returnLoop function dur message now rest i sleeps) :=
  ⟨Until.executions_eq start_time interval timeout hi,
   fun k => Until.lt_nTicks_iff interval timeout hi k,
   fun _ function dur message now tick rest i sleeps hsk => by
     rw [Until.returnLoop, if_pos hsk]⟩

/-- Witness for C1 at `start_time = 0`, `interval = 1`, `timeout = 5/2`. -/
theorem c1_return_schedule_witness :
    (Until.executions 0 1 (5/2)
        = (List.range (Until.nTicks 1 (5/2))).map (fun k : Nat => 0 + 1 / 10 + (k : ℚ) * 1))
    ∧ ((2 : Nat) < Until.nTicks 1 (5/2) ↔ (1 : ℚ) / 10 + (2 : ℚ) * 1 < 5/2) :=
  ⟨(c1_return_schedule 0 1 (5/2) (by norm_num) (by norm_num)).1,
   (c1_return_schedule 0 1 (5/2) (by norm_num) (by norm_num)).2.1 2⟩

/-- Claim C2 counterexample: the caller supplies the (empty-string) message
`""`, all attempts raise an assertion failure, yet the exhaustion failure
carries the joined per-attempt messages, not the supplied message. -/
theorem c2_exhaustion_message_counterexample :
    (Until.assert_ (fun _ => Until.AssertOutcome.assertionError "boom") (some "") 1).1
        = Until.AssertResult.noMoreTries (some "boom")
    ∧ (Until.assert_ (fun _ => Until.AssertOutcome.assertionError "boom") (some "") 1).1
        ≠ Until.AssertResult.noMoreTries (some "") := by
  decide

/-- Claim C2 (amended): if all `tries` attempts raise an assertion failure,
`assert_` raises `NoMoreTries` whose message is the caller-supplied message
when a truthy (non-`None`, non-empty) one is supplied, and otherwise the
newline-joined concatenation of the string forms of all captured per-attempt
assertion failures, in attempt order. -/
theorem c2_exhaustion_message (assert_function : Nat → Until.AssertOutcome)
    (msgs : Nat → String) (message : Option String) (tries : Nat)
    (h : ∀ j, j < tries → assert_function j = Until.AssertOutcome.assertionError (msgs j)) :
    Until.assert_ assert_function message tries
      = (if Until.pyTruthy message then Until.AssertResult.noMoreTries message
         else Until.AssertResult.noMoreTries
            (some (String.intercalate "\n" ((List.range tries).map msgs))), tries, tries) := by
  have hall := Until.assertLoop_all_fail assert_function msgs message tries 0 [] 0
    (fun j hj => by simpa using h j hj)
  have hmap : (List.range tries).map (fun j => msgs (0 + j)) = (List.range tries).map msgs :=
    List.map_congr_left fun j _ => by rw [Nat.zero_add]
  unfold Until.assert_
  rw [hall]
  simp only [List.nil_append, Nat.zero_add, hmap]
  rfl

/-- Witness for C2 (amended) with no message and two failing attempts. -/
theorem c2_exhaustion_message_witness :
    Until.assert_ (fun j => Until.AssertOutcome.assertionError (toString j)) none 2
      = (Until.AssertResult.noMoreTries (some "0\n1"), 2, 2) := by
  rw [c2_exhaustion_message (fun j => Until.AssertOutcome.assertionError (toString j))
    (fun j => toString j) none 2 (fun j hj => rfl)]
  decide

/-- Claim C3: a probe raising an assertion failure on its first `k`
invocations and then completing makes `assert_` (with `tries > k`) return
normally after exactly `k + 1` invocations. -/
theorem c3_assert_first_success (assert_function : Nat → Until.AssertOutcome)
    (msgs : Nat → String) (message : Option String) (k tries : Nat)
    (hfail : ∀ j, j < k → assert_function j = Until.AssertOutcome.assertionError (msgs j))
    (hok : assert_function k = Until.AssertOutcome.ok)
    (hk : k < tries) :
    Until.assert_ assert_function message tries = (Until.AssertResult.returned, k + 1, k) := by
  have h1 := Until.assertLoop_first_ok assert_function msgs message k tries 0 [] 0
    (fun j hj => by simpa using hfail j hj) (by simpa using hok) hk
  unfold Until.assert_
  rw [h1]
  simp

/-- Witness for C3 with `k = 2` failures then success, `tries = 5`. -/
theorem c3_assert_first_success_witness :
    Until.assert_
        (fun j => if j < 2 then Until.AssertOutcome.assertionError "nope"
          else Until.AssertOutcome.ok) none 5
      = (Until.AssertResult.returned, 3, 2) := by
  have h := c3_assert_first_success
    (fun j => if j < 2 then Until.AssertOutcome.assertionError "nope"
      else Until.AssertOutcome.ok)
    (fun _ => "nope") none 2 5 (fun j hj => by simp [hj]) (by decide) (by omega)
  simpa using h

/-- Claim C4: in return-until-timeout, the first probe invocation that
completes without raising ends the call with its value returned unchanged
(the value is arbitrary, so falsy values such as `False` are included); a
whole call whose probe raises before invocation `j0` and returns `v` at
invocation `j0` can only return `v` or exhaust its schedule. -/
theorem c4_return_first_success {α : Type} (function : Nat → Until.ReturnOutcome α)
    (dur : Nat → ℚ) (message : Option String) (es : Nat → String) (j0 : Nat) (v : α)
    (hexc : ∀ j, j < j0 → function j = Until.ReturnOutcome.exc (es j))
    (hok : function j0 = Until.ReturnOutcome.ok v) :
    (∀ (now tick : ℚ) (rest : List ℚ) (sleeps : Nat), ¬ tick < now →
        Until.returnLoop function dur message now (tick :: rest) j0 sleeps
          = (Until.PollResult.returned v, j0 + 1, sleeps + 1))
    ∧ (∀ (timeout interval start_time : ℚ),
        (Until.return_ function dur message timeout interval start_time).1
            = Until.PollResult.returned v
        ∨ (Until.return_ function dur message timeout interval start_time).1
            = Until.PollResult.noMoreTries message) := by
  constructor
  · intro now tick rest sleeps hsk
    rw [Until.returnLoop, if_neg hsk]
    simp [hok]
  · intro timeout interval start_time
    exact Until.returnLoop_first_ok function dur message es j0 v hexc hok
      (Until.executions start_time interval timeout) start_time 0 0 (Nat.zero_le j0)

/-- Witness for C4: the probe raises once, then returns the falsy value
`false`, which is handed back unchanged. -/
theorem c4_return_first_success_witness :
    Until.returnLoop
        (fun j => if j = 0 then Until.ReturnOutcome.exc "err"
          else Until.ReturnOutcome.ok Bool.false) (fun _ => 0) (some "m") 0 [(1 : ℚ)/2] 1 0
      = (Until.PollResult.returned Bool.false, 2, 1)
    ∧ ((Until.return_
          (fun j => if j = 0 then Until.ReturnOutcome.exc "err"
            else Until.ReturnOutcome.ok Bool.false) (fun _ => 0) (some "m") 2 1 0).1
            = Until.PollResult.returned Bool.false
      ∨ (Until.return_
          (fun j => if j = 0 then Until.ReturnOutcome.exc "err"
            else Until.ReturnOutcome.ok Bool.false) (fun _ => 0) (some "m") 2 1 0).1
            = Until.PollResult.noMoreTries (some "m")) := by
  have h := c4_return_first_success
    (fun j => if j = 0 then Until.ReturnOutcome.exc "err"
      else Until.ReturnOutcome.ok Bool.false)
    (fun _ => 0) (some "m") (fun _ => "err") 1 Bool.false
    (fun j hj => by
      have hj0 : j = 0 := by omega
      subst hj0
      rfl)
    (by decide)
  exact ⟨by simpa using h.1 0 (1/2) [] 0 (by norm_num), h.2 2 1 0⟩

/-- Claim C5: `true` returns the value of the first attempt whose value is
truthy after exactly that many invocations; `false` returns the value of the
first attempt whose value is falsy after exactly that many invocations. -/
theorem c5_first_matching_attempt {α β : Type}
    (f : Nat → α) (tA : α → Bool) (mA : Option String) (triesA jA : Nat)
    (g : Nat → β) (tB : β → Bool) (mB : Option String) (triesB jB : Nat)
    (hA : ∀ j, j < jA → tA (f j) = Bool.false) (hA0 : tA (f jA) = Bool.true)
    (hAlt : jA < triesA)
    (hB : ∀ j, j < jB → tB (g j) = Bool.true) (hB0 : tB (g jB) = Bool.false)
    (hBlt : jB < triesB) :
    Until.true f tA mA triesA = (Until.PollResult.returned (f jA), jA + 1, jA)
    ∧ Until.false g tB mB triesB = (Until.PollResult.returned (g jB), jB + 1, jB) := by
  constructor
  · have h1 := Until.trueLoop_first_truthy f tA mA jA triesA 0 0
      (fun j hj => by simpa using hA j hj) (by simpa using hA0) hAlt
    unfold Until.true
    rw [h1]
    simp
  · have h1 := Until.falseLoop_first_falsy g tB mB jB triesB 0 0
      (fun j hj => by simpa using hB j hj) (by simpa using hB0) hBlt
    unfold Until.false
    rw [h1]
    simp

/-- Witness for C5: `true` on values 0, 0, 7 (zero falsy) returns 7 after 3
invocations; `false` on values true, true, false returns `false` after 3
invocations. -/
theorem c5_first_matching_attempt_witness :
    Until.true (fun j => if j < 2 then 0 else 7) (fun v : Nat => !(v == 0)) none 3
      = (Until.PollResult.returned 7, 3, 2)
    ∧ Until.false (fun j => if j < 2 then Bool.true else Bool.false) (fun v => v) none 3
      = (Until.PollResult.returned Bool.false, 3, 2) := by
  have h := c5_first_matching_attempt
    (fun j => if j < 2 then 0 else 7) (fun v : Nat => !(v == 0)) none 3 2
    (fun j => if j < 2 then Bool.true else Bool.false) (fun v => v) none 3 2
    (fun j hj => by simp [hj]) (by decide) (by omega)
    (fun j hj => by simp [hj]) (by decide) (by omega)
  simpa using h

/-- Claim C6: in return-until-timeout, an exception raised by a probe
invocation is swallowed — the loop proceeds to the next scheduled tick — and
a call whose probe raises on every invocation raises `NoMoreTries` carrying
exactly the caller-supplied message. -/
theorem c6_return_swallows_exceptions {α : Type} (function : Nat → Until.ReturnOutcome α)
    (dur : Nat → ℚ) (message : Option String) (es : Nat → String) :
    (∀ (now tick : ℚ) (rest : List ℚ) (i sleeps : Nat) (e : String), ¬ tick < now →
        function i = Until.ReturnOutcome.exc e →
        Until.returnLoop function dur message now (tick :: rest) i sleeps
          = Until.returnLoop function dur message (tick + dur i) rest (i + 1) (sleeps + 1))
    ∧ ((∀ j, function j = Until.ReturnOutcome.exc (es j)) →
        ∀ (timeout interval start_time : ℚ),
          (Until.return_ function dur message timeout interval start_time).1
            = Until.PollResult.noMoreTries message) := by
  constructor
  · intro now tick rest i sleeps e hsk hexc
    rw [Until.returnLoop, if_neg hsk]
    simp [hexc]
  · intro hall timeout interval start_time
    exact Until.returnLoop_all_exc function dur message es hall
      (Until.executions start_time interval timeout) start_time 0 0

/-- Witness for C6: a probe that always raises makes the call end with
`NoMoreTries` carrying the caller's message. -/
theorem c6_return_swallows_exceptions_witness :
    (Until.return_ (fun _ => (Until.ReturnOutcome.exc "boom" : Until.ReturnOutcome Bool))
        (fun _ => 0) (some "gave up") 2 1 0).1
      = Until.PollResult.noMoreTries (some "gave up") :=
  (c6_return_swallows_exceptions (fun _ => Until.ReturnOutcome.exc "boom") (fun _ => 0)
      (some "gave up") (fun _ => "boom")).2 (fun _ => rfl) 2 1 0

/-- Claim C7: if no attempt within the tries budget produces a value of the
target truthiness, `true` and `false` raise `NoMoreTries` whose message is
exactly the caller-supplied message (`None` when not supplied), with no
accumulation of per-attempt diagnostics. -/
theorem c7_exhaustion_passes_message {α β : Type}
    (f : Nat → α) (tA : α → Bool) (mA : Option String) (triesA : Nat)
    (g : Nat → β) (tB : β → Bool) (mB : Option String) (triesB : Nat)
    (hA : ∀ j, j < triesA → tA (f j) = Bool.false)
    (hB : ∀ j, j < triesB → tB (g j) = Bool.true) :
    Until.true f tA mA triesA = (Until.PollResult.noMoreTries mA, triesA, triesA)
    ∧ Until.false g tB mB triesB = (Until.PollResult.noMoreTries mB, triesB, triesB) := by
  constructor
  · have h1 := Until.trueLoop_all_falsy f tA mA triesA 0 0
      (fun j hj => by simpa using hA j hj)
    unfold Until.true
    rw [h1]
    simp
  · have h1 := Until.falseLoop_all_truthy g tB mB triesB 0 0
      (fun j hj => by simpa using hB j hj)
    unfold Until.false
    rw [h1]
    simp

/-- Witness for C7: `true` with no message raises `NoMoreTries None`;
`false` with a message raises `NoMoreTries` with exactly that message. -/
theorem c7_exhaustion_passes_message_witness :
    Until.true (fun _ => (0 : Nat)) (fun v => !(v == 0)) none 2
      = (Until.PollResult.noMoreTries none, 2, 2)
    ∧ Until.false (fun _ => Bool.true) (fun v => v) (some "still true") 2
      = (Until.PollResult.noMoreTries (some "still true"), 2, 2) :=
  c7_exhaustion_passes_message (fun _ => (0 : Nat)) (fun v => !(v == 0)) none 2
    (fun _ => Bool.true) (fun v => v) (some "still true") 2
    (fun j _ => rfl) (fun j _ => rfl)

/-- Claim C8: in `assert_`, a probe invocation that raises a non-assertion
exception ends the call immediately: the exception propagates unmodified
after exactly that invocation (no retry), and no exhaustion failure is
raised. -/
theorem c8_assert_fatal_exception (assert_function : Nat → Until.AssertOutcome)
    (msgs : Nat → String) (message : Option String) (e : String) (k tries : Nat)
    (hfail : ∀ j, j < k → assert_function j = Until.AssertOutcome.assertionError (msgs j))
    (hraise : assert_function k = Until.AssertOutcome.raised e)
    (hk : k < tries) :
    Until.assert_ assert_function message tries
      = (Until.AssertResult.propagated e, k + 1, k) := by
  have h1 := Until.assertLoop_first_raised assert_function msgs message e k tries 0 [] 0
    (fun j hj => by simpa using hfail j hj) (by simpa using hraise) hk
  unfold Until.assert_
  rw [h1]
  simp

/-- Witness for C8: a `TypeError`-style exception on the first attempt
propagates with only one invocation, despite `tries = 3`. -/
theorem c8_assert_fatal_exception_witness :
    Until.assert_ (fun _ => Until.AssertOutcome.raised "TypeError") none 3
      = (Until.AssertResult.propagated "TypeError", 1, 0) :=
  c8_assert_fatal_exception (fun _ => Until.AssertOutcome.raised "TypeError")
    (fun _ => "") none "TypeError" 0 3 (fun j hj => absurd hj (Nat.not_lt_zero j)) rfl
    (by omega)

/-- Claim C9 counterexample: with `tries = 1` and a failing sole attempt,
`assert_`, `true` and `false` each execute one `time.sleep(interval)` (after
the failing attempt, before raising), so a sleep does occur before the call
fails. -/
theorem c9_single_attempt_counterexample :
    (Until.assert_ (fun _ => Until.AssertOutcome.assertionError "nope") none 1).2.2 = 1
    ∧ (Until.assert_ (fun _ => Until.AssertOutcome.assertionError "nope") none 1).2.2 ≠ 0
    ∧ (Until.true (fun _ => (0 : Nat)) (fun v => !(v == 0)) none 1).2.2 = 1
    ∧ (Until.false (fun _ => Bool.true) (fun v => v) none 1).2.2 = 1 := by
  decide

/-- Claim C9 (amended): with `tries = 1` (or, for return-until-timeout, a
timeout shorter than one interval), every strategy invokes the probe at most
once, so no sleep separates two probe invocations; but `assert_`, `true` and
`false` do execute their single interval sleep when the sole attempt fails —
after that attempt, before the call raises — and sleep zero times when it
succeeds. -/
theorem c9_single_attempt :
    (∀ (assert_function : Nat → Until.AssertOutcome) (message : Option String),
        (Until.assert_ assert_function message 1).2.1 ≤ 1
        ∧ (Until.assert_ assert_function message 1).2.2 ≤ 1
        ∧ (∀ m, assert_function 0 = Until.AssertOutcome.assertionError m →
            (Until.assert_ assert_function message 1).2.2 = 1)
        ∧ (assert_function 0 = Until.AssertOutcome.ok →
            (Until.assert_ assert_function message 1).2.2 = 0))
    ∧ (∀ (α : Type) (f : Nat → α) (truthy : α → Bool) (message : Option String),
        (Until.true f truthy message 1).2.1 ≤ 1
        ∧ (truthy (f 0) = Bool.false → (Until.true f truthy message 1).2.2 = 1)
        ∧ (truthy (f 0) = Bool.true → (Until.true f truthy message 1).2.2 = 0))
    ∧ (∀ (α : Type) (f : Nat → α) (truthy : α → Bool) (message : Option String),
        (Until.false f truthy message 1).2.1 ≤ 1
        ∧ (truthy (f 0) = Bool.true → (Until.false f truthy message 1).2.2 = 1)
        ∧ (truthy (f 0) = Bool.false → (Until.false f truthy message 1).2.2 = 0))
    ∧ (∀ (α : Type) (function : Nat → Until.ReturnOutcome α) (dur : Nat → ℚ)
        (message : Option String) (timeout interval start_time : ℚ),
        0 < interval → timeout < interval →
        (Until.return_ function dur message timeout interval start_time).2.1 ≤ 1) := by
  refine ⟨?_, ?_, ?_, ?_⟩
  · intro assert_function message
    have h1 : Until.assert_ assert_function message 1
        = Until.assertLoop assert_function message 0 [] 0 1 := rfl
    rw [h1]
    cases h : assert_function 0 with
    | ok => simp [Until.assertLoop, h]
    | assertionError m => simp [Until.assertLoop, h]
    | raised e => simp [Until.assertLoop, h]
  · intro α f truthy message
    have h1 : Until.true f truthy message 1 = Until.trueLoop f truthy message 0 0 1 := rfl
    rw [h1]
    cases h : truthy (f 0) with
    | true => simp [Until.trueLoop, h]
    | false => simp [Until.trueLoop, h]
  · intro α f truthy message
    have h1 : Until.false f truthy message 1 = Until.falseLoop f truthy message 0 0 1 := rfl
    rw [h1]
    cases h : truthy (f 0) with
    | true => simp [Until.falseLoop, h]
    | false => simp [Until.falseLoop, h]
  · intro α function dur message timeout interval start_time hi hT
    have hlen : (Until.executions start_time interval timeout).length ≤ 1 := by
      rw [Until.executions_eq start_time interval timeout hi]
      simp only [List.length_map, List.length_range]
      have hceil : ⌈(timeout - interval / 10) / interval⌉ ≤ 1 := by
        rw [Int.ceil_le, div_le_iff₀ hi]
        push_cast
        nlinarith
      unfold Until.nTicks
      omega
    have hle := Until.returnLoop_calls_le function dur message
      (Until.executions start_time interval timeout) start_time 0 0
    have h1 : (Until.return_ function dur message timeout interval start_time).2.1
        = (Until.returnLoop function dur message start_time
            (Until.executions start_time interval timeout) 0 0).2.1 := rfl
    rw [h1]
    omega

/-- Witness for C9 (amended): the failing-attempt sleep of each of the three
try-counted strategies, and the single-tick bound of return-until-timeout,
at concrete inputs. -/
theorem c9_single_attempt_witness :
    (Until.assert_ (fun _ => Until.AssertOutcome.assertionError "nope") none 1).2.2 = 1
    ∧ (Until.true (fun _ => (0 : Nat)) (fun v => !(v == 0)) none 1).2.2 = 1
    ∧ (Until.false (fun _ => Bool.true) (fun v => v) none 1).2.2 = 1
    ∧ (Until.return_ (fun _ => (Until.ReturnOutcome.exc "x" : Until.ReturnOutcome Bool))
        (fun _ => 0) none (1/2) 1 0).2.1 ≤ 1 :=
  ⟨(c9_single_attempt.1 (fun _ => Until.AssertOutcome.assertionError "nope") none).2.2.1
     "nope" rfl,
   (c9_single_attempt.2.1 Nat (fun _ => (0 : Nat)) (fun v => !(v == 0)) none).2.1 rfl,
   (c9_single_attempt.2.2.1 Bool (fun _ => Bool.true) (fun v => v) none).2.1 rfl,
   c9_single_attempt.2.2.2 Bool (fun _ => Until.ReturnOutcome.exc "x") (fun _ => 0) none
     (1/2) 1 0 (by norm_num) (by norm_num)⟩

/-- Claim C10: when all attempts raise an assertion failure and the caller
supplies the empty string as message, `assert_` raises `NoMoreTries` with the
newline-joined per-attempt failure messages — the `if message:` test is for
truthiness, so an empty message behaves exactly as if no message had been
supplied. -/
theorem c10_falsy_message (assert_function : Nat → Until.AssertOutcome)
    (msgs : Nat → String) (tries : Nat)
    (h : ∀ j, j < tries → assert_function j = Until.AssertOutcome.assertionError (msgs j)) :
    (Until.assert_ assert_function (some "") tries).1
      = Until.AssertResult.noMoreTries
          (some (String.intercalate "\n" ((List.range tries).map msgs)))
    ∧ (Until.assert_ assert_function (some "") tries).1
      = (Until.assert_ assert_function none tries).1 := by
  have hsome := Until.assertLoop_all_fail assert_function msgs (some "") tries 0 [] 0
    (fun j hj => by simpa using h j hj)
  have hnone := Until.assertLoop_all_fail assert_function msgs none tries 0 [] 0
    (fun j hj => by simpa using h j hj)
  have hmap : (List.range tries).map (fun j => msgs (0 + j)) = (List.range tries).map msgs :=
    List.map_congr_left fun j _ => by rw [Nat.zero_add]
  constructor
  · unfold Until.assert_
    rw [hsome]
    simp only [List.nil_append, hmap]
    rfl
  · unfold Until.assert_
    rw [hsome, hnone]
    simp only [List.nil_append, hmap]
    rfl

/-- Witness for C10 with two failing attempts and message `""`. -/
theorem c10_falsy_message_witness :
    (Until.assert_ (fun j => Until.AssertOutcome.assertionError (toString j)) (some "") 2).1
      = Until.AssertResult.noMoreTries (some "0\n1") := by
  rw [(c10_falsy_message (fun j => Until.AssertOutcome.assertionError (toString j))
    (fun j => toString j) 2 (fun j hj => rfl)).1]
  decide
